import Mathlib

/-!
Shallow embedding of the infinity-mcp-server storage layer
(src/infinity_mcp_server/models.py and src/infinity_mcp_server/storage.py).

Records ("memories") are stored in a JSON backing file as dictionaries; the
file also holds the project id.  The store object keeps an in-memory
`project_id` that is `none` until `activate_project` has run.  Filesystem
content is modelled as already-parsed data; every operation additionally
returns the list of filesystem accesses (reads/writes of the memories file)
it performed, mirroring the order of `_read_memories_file` /
`_write_memories_file` calls in the source.
-/

namespace Infinity

/-- models.py: fixed set of allowed memory types (`ALLOWED_MEMORY_TYPES`). -/
def ALLOWED_MEMORY_TYPES : List String :=
  ["design_doc", "project_overview", "implementation_plan", "progress_tracker",
   "test_plan", "instructions", "guidelines", "analysis"]

/-- models.py: the `Memory` dataclass. -/
structure Memory where
  id : String
  title : String
  type : String
  content : String
  created_at : String
  updated_at : Option String := none
deriving Repr, DecidableEq

/-- The JSON dictionary form of a memory, as produced by `Memory.to_dict`
and stored in the `memories` array of memories.json. -/
structure MemDict where
  id : String
  title : String
  type : String
  content : String
  created_at : String
  updated_at : Option String
deriving Repr, DecidableEq

/-- models.py: `Memory.to_dict`. -/
def Memory.to_dict (m : Memory) : MemDict :=
  { id := m.id, title := m.title, type := m.type, content := m.content,
    created_at := m.created_at, updated_at := m.updated_at }

/-- models.py: `Memory.from_dict`. -/
def Memory.from_dict (d : MemDict) : Memory :=
  { id := d.id, title := d.title, type := d.type, content := d.content,
    created_at := d.created_at, updated_at := d.updated_at }

/-- models.py: the `MemoryMetadata` dataclass (no content field). -/
structure MemoryMetadata where
  id : String
  title : String
  type : String
deriving Repr, DecidableEq

/-- The typed error conditions of models.py, one constructor per exception
class, carrying the same payload the exception message names. -/
inductive MemError where
  | invalidMemoryType (memory_type : String)
  | missingRequiredField (field : String)
  | memoryNotFound (memory_id : String)
  | projectNotActivated
  | storageError (msg : String)
deriving Repr, DecidableEq

/-- The `error_code` string each exception carries. -/
def MemError.code : MemError → String
  | .invalidMemoryType _ => "invalid_memory_type"
  | .missingRequiredField _ => "missing_required_field"
  | .memoryNotFound _ => "memory_not_found"
  | .projectNotActivated => "project_not_activated"
  | .storageError _ => "storage_error"

/-- models.py: `validate_memory_type`. -/
def validate_memory_type (memory_type : String) : Except MemError Unit :=
  if memory_type ∈ ALLOWED_MEMORY_TYPES then Except.ok ()
  else Except.error (MemError.invalidMemoryType memory_type)

/-- models.py: `validate_required_field` (a null or empty-string value is
rejected; null is modelled as `none`). -/
def validate_required_field (value : Option String) (field_name : String) :
    Except MemError Unit :=
  match value with
  | none => Except.error (MemError.missingRequiredField field_name)
  | some s =>
      if s = "" then Except.error (MemError.missingRequiredField field_name)
      else Except.ok ()

/-- The parsed logical content of memories.json:
`{"project_id": ..., "memories": [...]}`. -/
structure MemoriesData where
  project_id : Option String
  memories : List MemDict
deriving Repr, DecidableEq

/-- The filesystem state one store instance sees: the identity file and the
memories file inside the .infinity directory, each possibly absent. -/
structure FS where
  project_id_file : Option String
  memories_file : Option MemoriesData
deriving Repr, DecidableEq

/-- storage.py: the `MemoryStorage` instance state: the filesystem plus the
in-memory `self.project_id` (None until activation). -/
structure MemoryStorage where
  fs : FS
  project_id : Option String
deriving Repr, DecidableEq

/-- A filesystem access performed by an operation. -/
inductive FsAccess where
  | read
  | write
deriving Repr, DecidableEq

/-- storage.py: `activate_project`.  `fresh_id` stands for the value of
`str(uuid.uuid4())` drawn when a new id is needed.  Returns the updated
state and the project id. -/
def activate_project (st : MemoryStorage) (fresh_id : String) :
    MemoryStorage × String :=
  let pid : String :=
    match st.fs.project_id_file with
    | some s => s.trim
    | none => fresh_id
  let fs1 : FS :=
    match st.fs.project_id_file with
    | some _ => st.fs
    | none => { st.fs with project_id_file := some fresh_id }
  let initData : MemoriesData := { project_id := some pid, memories := [] }
  let fs2 : FS :=
    match fs1.memories_file with
    | some _ => fs1
    | none => { fs1 with memories_file := some initData }
  ({ fs := fs2, project_id := some pid }, pid)

/-- storage.py: `_ensure_activated`. -/
def _ensure_activated (st : MemoryStorage) : Except MemError Unit :=
  match st.project_id with
  | none => Except.error MemError.projectNotActivated
  | some _ => Except.ok ()

/-- storage.py: `_read_memories_file`: an absent file reads as an empty
collection tagged with the in-memory project id. -/
def _read_memories_file (st : MemoryStorage) : MemoriesData :=
  match st.fs.memories_file with
  | none => { project_id := st.project_id, memories := [] }
  | some d => d

/-- storage.py: `_write_memories_file` (the temp-file-then-rename sequence is
atomic, so it is modelled as directly installing the new content). -/
def _write_memories_file (st : MemoryStorage) (data : MemoriesData) :
    MemoryStorage :=
  { st with fs := { st.fs with memories_file := some data } }

/-- storage.py: `store_memory`.  `title` and `content` are `Option` to model
possibly-null arguments; `new_id` and `ts` stand for `str(uuid.uuid4())` and
`get_iso_timestamp()`.  Returns the result together with the filesystem
accesses performed. -/
def store_memory (st : MemoryStorage) (title : Option String)
    (memory_type : String) (content : Option String) (new_id ts : String) :
    Except MemError (MemoryStorage × String) × List FsAccess :=
  match _ensure_activated st with
  | Except.error e => (Except.error e, [])
  | Except.ok _ =>
    match validate_required_field title "title" with
    | Except.error e => (Except.error e, [])
    | Except.ok _ =>
      match validate_memory_type memory_type with
      | Except.error e => (Except.error e, [])
      | Except.ok _ =>
        match content with
        | none => (Except.error (MemError.missingRequiredField "content"), [])
        | some c =>
          let memory : Memory :=
            { id := new_id, title := title.getD "", type := memory_type,
              content := c, created_at := ts }
          let data := _read_memories_file st
          let data' := { data with memories := data.memories ++ [memory.to_dict] }
          (Except.ok (_write_memories_file st data', new_id),
           [FsAccess.read, FsAccess.write])

/-- The linear search of `get_memory`: first dictionary with the given id. -/
def findMemory : List MemDict → String → Option MemDict
  | [], _ => none
  | m :: ms, memory_id =>
      if m.id = memory_id then some m else findMemory ms memory_id

/-- storage.py: `get_memory`. -/
def get_memory (st : MemoryStorage) (memory_id : String) :
    Except MemError Memory × List FsAccess :=
  match _ensure_activated st with
  | Except.error e => (Except.error e, [])
  | Except.ok _ =>
    let data := _read_memories_file st
    match findMemory data.memories memory_id with
    | some m => (Except.ok (Memory.from_dict m), [FsAccess.read])
    | none => (Except.error (MemError.memoryNotFound memory_id), [FsAccess.read])

/-- storage.py: `list_memories`: optional type filter, projection to
metadata (content excluded). -/
def list_memories (st : MemoryStorage) (memory_type : Option String) :
    Except MemError (List MemoryMetadata) × List FsAccess :=
  match _ensure_activated st with
  | Except.error e => (Except.error e, [])
  | Except.ok _ =>
    let data := _read_memories_file st
    let kept := data.memories.filter fun m =>
      match memory_type with
      | none => true
      | some t => m.type == t
    (Except.ok (kept.map fun m =>
      ({ id := m.id, title := m.title, type := m.type } : MemoryMetadata)),
     [FsAccess.read])

/-- The in-place loop of `update_memory`: rewrite the first dictionary whose
id matches, setting content and updated_at; `none` when no id matches. -/
def updateFirst (ms : List MemDict) (memory_id content ts : String) :
    Option (List MemDict) :=
  match ms with
  | [] => none
  | m :: rest =>
      if m.id = memory_id then
        some ({ m with content := content, updated_at := some ts } :: rest)
      else
        match updateFirst rest memory_id content ts with
        | some rest' => some (m :: rest')
        | none => none

/-- storage.py: `update_memory`; `ts` stands for `get_iso_timestamp()`. -/
def update_memory (st : MemoryStorage) (memory_id content ts : String) :
    Except MemError MemoryStorage × List FsAccess :=
  match _ensure_activated st with
  | Except.error e => (Except.error e, [])
  | Except.ok _ =>
    let data := _read_memories_file st
    match updateFirst data.memories memory_id content ts with
    | none => (Except.error (MemError.memoryNotFound memory_id), [FsAccess.read])
    | some ms' =>
        (Except.ok (_write_memories_file st { data with memories := ms' }),
         [FsAccess.read, FsAccess.write])

/-- storage.py: `delete_memory`: keeps every dictionary whose id differs,
and fails when nothing was removed. -/
def delete_memory (st : MemoryStorage) (memory_id : String) :
    Except MemError MemoryStorage × List FsAccess :=
  match _ensure_activated st with
  | Except.error e => (Except.error e, [])
  | Except.ok _ =>
    let data := _read_memories_file st
    let remaining := data.memories.filter fun m => m.id != memory_id
    if remaining.length = data.memories.length then
      (Except.error (MemError.memoryNotFound memory_id), [FsAccess.read])
    else
      (Except.ok (_write_memories_file st { data with memories := remaining }),
       [FsAccess.read, FsAccess.write])

/-! Concrete states used to instantiate the theorems. -/

/-- A concrete stored record. -/
def sampleDict : MemDict :=
  { id := "id1", title := "T1", type := "design_doc", content := "c1",
    created_at := "2024-01-01T00:00:00Z", updated_at := none }

/-- A concrete activated store holding one record. -/
def sampleStore : MemoryStorage :=
  { fs := { project_id_file := some "p-1",
            memories_file := some { project_id := some "p-1",
                                    memories := [sampleDict] } },
    project_id := some "p-1" }

/-- A store on which activation has never run. -/
def freshStore : MemoryStorage :=
  { fs := { project_id_file := none, memories_file := none },
    project_id := none }

/-- An activated store whose memories file is absent from disk. -/
def activatedNoFileStore : MemoryStorage :=
  { fs := { project_id_file := some "p-1", memories_file := none },
    project_id := some "p-1" }

/-! Helper lemmas shared by the claim theorems. -/

theorem from_dict_to_dict (m : Memory) :
    Memory.from_dict (Memory.to_dict m) = m := rfl

theorem read_write_memories (st : MemoryStorage) (d : MemoriesData) :
    _read_memories_file (_write_memories_file st d) = d := rfl

theorem write_preserves_project_id (st : MemoryStorage) (d : MemoriesData) :
    (_write_memories_file st d).project_id = st.project_id := rfl

theorem findMemory_none_of_forall (ms : List MemDict) (mid : String)
    (h : ∀ m ∈ ms, m.id ≠ mid) : findMemory ms mid = none := by
  induction ms with
  | nil => rfl
  | cons m rest ih =>
      have hm : m.id ≠ mid := h m (List.mem_cons_self m rest)
      simp only [findMemory, if_neg hm]
      exact ih fun x hx => h x (List.mem_cons_of_mem m hx)

theorem findMemory_append_fresh (l : List MemDict) (d : MemDict) (mid : String)
    (h : findMemory l mid = none) (hd : d.id = mid) :
    findMemory (l ++ [d]) mid = some d := by
  induction l with
  | nil => simp [findMemory, hd]
  | cons m rest ih =>
      simp only [findMemory] at h
      by_cases hm : m.id = mid
      · rw [if_pos hm] at h; exact absurd h (by simp)
      · rw [if_neg hm] at h
        simpa [findMemory, if_neg hm] using ih h

theorem updateFirst_none_of_forall (ms : List MemDict) (mid c ts : String)
    (h : ∀ m ∈ ms, m.id ≠ mid) : updateFirst ms mid c ts = none := by
  induction ms with
  | nil => rfl
  | cons m rest ih =>
      have hm : m.id ≠ mid := h m (List.mem_cons_self m rest)
      simp only [updateFirst, if_neg hm]
      rw [ih fun x hx => h x (List.mem_cons_of_mem m hx)]

theorem updateFirst_decomp (l1 : List MemDict) (m : MemDict)
    (l2 : List MemDict) (mid c ts : String)
    (h1 : ∀ x ∈ l1, x.id ≠ mid) (hm : m.id = mid) :
    updateFirst (l1 ++ m :: l2) mid c ts =
      some (l1 ++ { m with content := c, updated_at := some ts } :: l2) := by
  induction l1 with
  | nil => simp [updateFirst, hm]
  | cons x rest ih =>
      have hx : x.id ≠ mid := h1 x (List.mem_cons_self x rest)
      simp only [List.cons_append, updateFirst, if_neg hx, List.append_eq]
      rw [ih fun y hy => h1 y (List.mem_cons_of_mem x hy)]

theorem filter_ne_of_forall (ms : List MemDict) (mid : String)
    (h : ∀ m ∈ ms, m.id ≠ mid) :
    ms.filter (fun x => x.id != mid) = ms := by
  apply List.filter_eq_self.mpr
  intro x hx
  simpa using h x hx

theorem length_filter_ne_of_mem (ms : List MemDict) (mid : String)
    (hnodup : (ms.map MemDict.id).Nodup)
    (hmem : ∃ m ∈ ms, m.id = mid) :
    (ms.filter (fun x => x.id != mid)).length + 1 = ms.length := by
  induction ms with
  | nil => exact absurd hmem (by simp)
  | cons m rest ih =>
      simp only [List.map_cons, List.nodup_cons] at hnodup
      by_cases hm : m.id = mid
      · have hrest : rest.filter (fun x => x.id != mid) = rest := by
          apply filter_ne_of_forall
          intro x hx hxm
          exact hnodup.1 (by rw [hm, ← hxm]; exact List.mem_map_of_mem MemDict.id hx)
        simp [List.filter_cons, hm, hrest]
      · obtain ⟨y, hy, hyid⟩ := hmem
        rcases List.mem_cons.mp hy with h1 | h2
        · exact absurd (h1 ▸ hyid) hm
        · have := ih hnodup.2 ⟨y, h2, hyid⟩
          simp only [List.filter_cons, show (m.id != mid) = true by simpa using hm,
            if_pos, List.length_cons]
          omega

/-! Claim theorems. -/

/-- C1: For every valid input triple (non-empty title, kind in the fixed
enumeration, non-null content), calling create(title, kind, content) on an
activated store (with a fresh id) and then read of the returned id yields a
record whose title, kind and content equal the inputs exactly, whose
createdAt is set (to the creation timestamp), and whose updatedAt is
absent. -/
theorem store_memory_ok (st : MemoryStorage) (pid t kind c new_id ts : String)
    (hact : st.project_id = some pid) (ht : t ≠ "")
    (hk : kind ∈ ALLOWED_MEMORY_TYPES) :
    store_memory st (some t) kind (some c) new_id ts =
      (Except.ok (_write_memories_file st
        (MemoriesData.mk (_read_memories_file st).project_id
          ((_read_memories_file st).memories ++
            [Memory.to_dict (Memory.mk new_id t kind c ts none)])), new_id),
       [FsAccess.read, FsAccess.write]) := by
  simp [store_memory, _ensure_activated, hact, validate_required_field, ht,
    validate_memory_type, hk]

theorem create_read_roundtrip (st : MemoryStorage)
    (pid t kind c new_id ts : String)
    (hact : st.project_id = some pid) (ht : t ≠ "")
    (hk : kind ∈ ALLOWED_MEMORY_TYPES)
    (hfresh : findMemory (_read_memories_file st).memories new_id = none) :
    ∃ st', (store_memory st (some t) kind (some c) new_id ts).1 =
        Except.ok (st', new_id) ∧
      (get_memory st' new_id).1 = Except.ok
        (Memory.mk new_id t kind c ts none) := by
  refine ⟨_write_memories_file st
    (MemoriesData.mk (_read_memories_file st).project_id
      ((_read_memories_file st).memories ++
        [Memory.to_dict (Memory.mk new_id t kind c ts none)])), ?_, ?_⟩
  · rw [store_memory_ok st pid t kind c new_id ts hact ht hk]
  · have hfind : findMemory ((_read_memories_file st).memories ++
        [Memory.to_dict (Memory.mk new_id t kind c ts none)]) new_id =
        some (Memory.to_dict (Memory.mk new_id t kind c ts none)) :=
      findMemory_append_fresh _ _ _ hfresh rfl
    simp [get_memory, _ensure_activated, read_write_memories,
      write_preserves_project_id, hact, hfind, from_dict_to_dict]

/-- C1 witness: the round-trip at a concrete activated store and input. -/
theorem create_read_roundtrip_witness :
    sampleStore.project_id = some "p-1" ∧ ("T2" : String) ≠ "" ∧
    "design_doc" ∈ ALLOWED_MEMORY_TYPES ∧
    findMemory (_read_memories_file sampleStore).memories "id2" = none ∧
    ∃ st', (store_memory sampleStore (some "T2") "design_doc" (some "c9")
        "id2" "t9").1 = Except.ok (st', "id2") ∧
      (get_memory st' "id2").1 = Except.ok
        { id := "id2", title := "T2", type := "design_doc", content := "c9",
          created_at := "t9", updated_at := none } :=
  ⟨rfl, by decide, by decide, by decide,
   create_read_roundtrip sampleStore "p-1" "T2" "design_doc" "c9" "id2" "t9"
     rfl (by decide) (by decide) (by decide)⟩

/-- C2: on an activated store with otherwise valid inputs, create succeeds
for every kind in the fixed 8-tag enumeration, and for every kind outside
it fails with invalid_memory_type performing no filesystem access at all
(so the backing file is not mutated). -/
theorem store_kind_enumeration (st : MemoryStorage)
    (pid t c new_id ts kind : String)
    (hact : st.project_id = some pid) (ht : t ≠ "") :
    (kind ∈ ALLOWED_MEMORY_TYPES →
      ∃ st', store_memory st (some t) kind (some c) new_id ts =
        (Except.ok (st', new_id), [FsAccess.read, FsAccess.write])) ∧
    (kind ∉ ALLOWED_MEMORY_TYPES →
      store_memory st (some t) kind (some c) new_id ts =
        (Except.error (MemError.invalidMemoryType kind), [])) := by
  constructor
  · intro hk
    exact ⟨_, store_memory_ok st pid t kind c new_id ts hact ht hk⟩
  · intro hk
    simp [store_memory, _ensure_activated, hact, validate_required_field, ht,
      validate_memory_type, hk]

/-- C2 witness: the kind spelled guidelines (the enumeration member) is
accepted and the kind spelled rules (outside the enumeration as coded) is
rejected, at a concrete store. -/
theorem store_kind_enumeration_witness :
    sampleStore.project_id = some "p-1" ∧ ("T2" : String) ≠ "" ∧
    ("guidelines" : String) ∈ ALLOWED_MEMORY_TYPES ∧
    ("rules" : String) ∉ ALLOWED_MEMORY_TYPES ∧
    ((("guidelines" : String) ∈ ALLOWED_MEMORY_TYPES →
      ∃ st', store_memory sampleStore (some "T2") "guidelines"
          (some "c9") "id2" "t9" =
        (Except.ok (st', "id2"), [FsAccess.read, FsAccess.write])) ∧
    (("guidelines" : String) ∉ ALLOWED_MEMORY_TYPES →
      store_memory sampleStore (some "T2") "guidelines"
          (some "c9") "id2" "t9" =
        (Except.error (MemError.invalidMemoryType "guidelines"), []))) ∧
    ((("rules" : String) ∈ ALLOWED_MEMORY_TYPES →
      ∃ st', store_memory sampleStore (some "T2") "rules"
          (some "c9") "id2" "t9" =
        (Except.ok (st', "id2"), [FsAccess.read, FsAccess.write])) ∧
    (("rules" : String) ∉ ALLOWED_MEMORY_TYPES →
      store_memory sampleStore (some "T2") "rules"
          (some "c9") "id2" "t9" =
        (Except.error (MemError.invalidMemoryType "rules"), []))) :=
  ⟨rfl, by decide, by decide, by decide,
   store_kind_enumeration sampleStore "p-1" "T2" "c9" "id2" "t9"
     "guidelines" rfl (by decide),
   store_kind_enumeration sampleStore "p-1" "T2" "c9" "id2" "t9"
     "rules" rfl (by decide)⟩

/-- C3: on an activated store, create with a null or empty title, a null
content, or a kind outside the enumeration returns the corresponding typed
validation error with an empty filesystem-access trace: validation failures
precede any filesystem read or write, so the persisted collection is
unchanged. -/
theorem create_validation_before_fs (st : MemoryStorage) (pid : String)
    (hact : st.project_id = some pid) :
    (∀ kind content new_id ts, store_memory st none kind content new_id ts =
        (Except.error (MemError.missingRequiredField "title"), [])) ∧
    (∀ kind content new_id ts,
      store_memory st (some "") kind content new_id ts =
        (Except.error (MemError.missingRequiredField "title"), [])) ∧
    (∀ t kind new_id ts, t ≠ "" → kind ∈ ALLOWED_MEMORY_TYPES →
      store_memory st (some t) kind none new_id ts =
        (Except.error (MemError.missingRequiredField "content"), [])) ∧
    (∀ t kind content new_id ts, t ≠ "" → kind ∉ ALLOWED_MEMORY_TYPES →
      store_memory st (some t) kind content new_id ts =
        (Except.error (MemError.invalidMemoryType kind), [])) := by
  refine ⟨?_, ?_, ?_, ?_⟩
  · intro kind content new_id ts
    simp [store_memory, _ensure_activated, hact, validate_required_field]
  · intro kind content new_id ts
    simp [store_memory, _ensure_activated, hact, validate_required_field]
  · intro t kind new_id ts ht hk
    simp [store_memory, _ensure_activated, hact, validate_required_field, ht,
      validate_memory_type, hk]
  · intro t kind content new_id ts ht hk
    simp [store_memory, _ensure_activated, hact, validate_required_field, ht,
      validate_memory_type, hk]

/-- C3 witness: the validation failures at a concrete activated store. -/
theorem create_validation_before_fs_witness :
    sampleStore.project_id = some "p-1" ∧
    store_memory sampleStore none "design_doc" (some "c") "id2" "t9" =
      (Except.error (MemError.missingRequiredField "title"), []) ∧
    store_memory sampleStore (some "") "design_doc" (some "c") "id2" "t9" =
      (Except.error (MemError.missingRequiredField "title"), []) ∧
    store_memory sampleStore (some "T2") "design_doc" none "id2" "t9" =
      (Except.error (MemError.missingRequiredField "content"), []) ∧
    store_memory sampleStore (some "T2") "bogus" (some "c") "id2" "t9" =
      (Except.error (MemError.invalidMemoryType "bogus"), []) :=
  ⟨rfl,
   (create_validation_before_fs sampleStore "p-1" rfl).1
     "design_doc" (some "c") "id2" "t9",
   (create_validation_before_fs sampleStore "p-1" rfl).2.1
     "design_doc" (some "c") "id2" "t9",
   (create_validation_before_fs sampleStore "p-1" rfl).2.2.1
     "T2" "design_doc" "id2" "t9" (by decide) (by decide),
   (create_validation_before_fs sampleStore "p-1" rfl).2.2.2
     "T2" "bogus" (some "c") "id2" "t9" (by decide) (by decide)⟩

/-- C4: on an activated store, update(id, content) fails memory_not_found
without writing when no record has that id; when the collection splits as
l1 ++ m :: l2 with the first match m, update succeeds and the new collection
is l1 ++ (m with new content and updatedAt set to the update time) :: l2:
m's id, title, kind and createdAt and every other record are identical
before and after. -/
theorem update_frame (st : MemoryStorage) (pid mid c ts : String)
    (hact : st.project_id = some pid) :
    ((∀ m ∈ (_read_memories_file st).memories, m.id ≠ mid) →
      update_memory st mid c ts =
        (Except.error (MemError.memoryNotFound mid), [FsAccess.read])) ∧
    (∀ l1 m l2, (_read_memories_file st).memories = l1 ++ m :: l2 →
      (∀ x ∈ l1, x.id ≠ mid) → m.id = mid →
      ∃ st', (update_memory st mid c ts).1 = Except.ok st' ∧
        st'.project_id = st.project_id ∧
        (_read_memories_file st').memories =
          l1 ++ MemDict.mk m.id m.title m.type c m.created_at (some ts) :: l2) := by
  constructor
  · intro h
    have hnone := updateFirst_none_of_forall (_read_memories_file st).memories
      mid c ts h
    simp [update_memory, _ensure_activated, hact, hnone]
  · intro l1 m l2 hsplit h1 hm
    have hupd := updateFirst_decomp l1 m l2 mid c ts h1 hm
    refine ⟨_write_memories_file st
      (MemoriesData.mk (_read_memories_file st).project_id
        (l1 ++ MemDict.mk m.id m.title m.type c m.created_at (some ts) :: l2)),
      ?_, rfl, ?_⟩
    · simp [update_memory, _ensure_activated, hact, hsplit, hupd]
    · simp [read_write_memories]

/-- C4 witness: update at a concrete store, on the present and on an absent
id. -/
theorem update_frame_witness :
    sampleStore.project_id = some "p-1" ∧
    ((∀ m ∈ (_read_memories_file sampleStore).memories, m.id ≠ "idX") →
      update_memory sampleStore "idX" "c2" "t2" =
        (Except.error (MemError.memoryNotFound "idX"), [FsAccess.read])) ∧
    ((_read_memories_file sampleStore).memories = [] ++ sampleDict :: []) ∧
    (∀ x ∈ ([] : List MemDict), x.id ≠ "id1") ∧ sampleDict.id = "id1" ∧
    ∃ st', (update_memory sampleStore "id1" "c2" "t2").1 = Except.ok st' ∧
      st'.project_id = sampleStore.project_id ∧
      (_read_memories_file st').memories =
        [] ++ MemDict.mk sampleDict.id sampleDict.title sampleDict.type "c2"
          sampleDict.created_at (some "t2") :: [] :=
  ⟨rfl, (update_frame sampleStore "p-1" "idX" "c2" "t2" rfl).1, rfl,
   by simp, rfl,
   (update_frame sampleStore "p-1" "id1" "c2" "t2" rfl).2 [] sampleDict []
     rfl (by simp) rfl⟩

/-- C5: on an activated store whose record ids are pairwise distinct,
delete(id) fails memory_not_found without writing when no record has that
id; when one does, delete succeeds, the new collection is exactly the old
one with the matching record filtered out (order of the rest preserved),
the length drops by exactly one, and a subsequent read of the id fails
memory_not_found. -/
theorem delete_removes_exactly_one (st : MemoryStorage) (pid mid : String)
    (hact : st.project_id = some pid)
    (hnodup : ((_read_memories_file st).memories.map MemDict.id).Nodup) :
    ((∀ m ∈ (_read_memories_file st).memories, m.id ≠ mid) →
      delete_memory st mid =
        (Except.error (MemError.memoryNotFound mid), [FsAccess.read])) ∧
    ((∃ m ∈ (_read_memories_file st).memories, m.id = mid) →
      ∃ st', (delete_memory st mid).1 = Except.ok st' ∧
        (_read_memories_file st').memories =
          (_read_memories_file st).memories.filter (fun x => x.id != mid) ∧
        (_read_memories_file st').memories.length + 1 =
          (_read_memories_file st).memories.length ∧
        (get_memory st' mid).1 =
          Except.error (MemError.memoryNotFound mid)) := by
  constructor
  · intro h
    have heq := filter_ne_of_forall (_read_memories_file st).memories mid h
    simp [delete_memory, _ensure_activated, hact, heq]
  · intro hmem
    have hlen := length_filter_ne_of_mem (_read_memories_file st).memories
      mid hnodup hmem
    have hne : ((_read_memories_file st).memories.filter
        (fun x => x.id != mid)).length ≠
        (_read_memories_file st).memories.length := by omega
    refine ⟨_write_memories_file st
      (MemoriesData.mk (_read_memories_file st).project_id
        ((_read_memories_file st).memories.filter (fun x => x.id != mid))),
      ?_, by simp [read_write_memories], ?_, ?_⟩
    · simp [delete_memory, _ensure_activated, hact, hne]
    · simpa [read_write_memories] using hlen
    · have hfind : findMemory ((_read_memories_file st).memories.filter
          (fun x => x.id != mid)) mid = none := by
        apply findMemory_none_of_forall
        intro x hx
        have := List.of_mem_filter hx
        simpa using this
      simp [get_memory, _ensure_activated, write_preserves_project_id, hact,
        read_write_memories, hfind]

/-- C5 witness: delete at a concrete store, on the present and on an absent
id. -/
theorem delete_removes_exactly_one_witness :
    sampleStore.project_id = some "p-1" ∧
    ((_read_memories_file sampleStore).memories.map MemDict.id).Nodup ∧
    ((∀ m ∈ (_read_memories_file sampleStore).memories, m.id ≠ "idX") →
      delete_memory sampleStore "idX" =
        (Except.error (MemError.memoryNotFound "idX"), [FsAccess.read])) ∧
    (∃ m ∈ (_read_memories_file sampleStore).memories, m.id = "id1") ∧
    ∃ st', (delete_memory sampleStore "id1").1 = Except.ok st' ∧
      (_read_memories_file st').memories =
        (_read_memories_file sampleStore).memories.filter
          (fun x => x.id != "id1") ∧
      (_read_memories_file st').memories.length + 1 =
        (_read_memories_file sampleStore).memories.length ∧
      (get_memory st' "id1").1 =
        Except.error (MemError.memoryNotFound "id1") :=
  ⟨rfl, by decide,
   (delete_removes_exactly_one sampleStore "p-1" "idX" rfl (by decide)).1,
   ⟨sampleDict, by decide⟩,
   (delete_removes_exactly_one sampleStore "p-1" "id1" rfl (by decide)).2
     ⟨sampleDict, by decide⟩⟩

/-- C6: on an activated store, list with a kind filter succeeds with exactly
the subsequence of records whose kind equals the filter, in insertion
order, each projected to id, title and kind only (MemoryMetadata has no
content field); when nothing matches the result is the empty sequence, not
an error. -/
theorem list_kind_filter (st : MemoryStorage) (pid t : String)
    (hact : st.project_id = some pid) :
    ∃ l, list_memories st (some t) = (Except.ok l, [FsAccess.read]) ∧
      l = ((_read_memories_file st).memories.filter
          (fun m => m.type == t)).map
        (fun m => MemoryMetadata.mk m.id m.title m.type) ∧
      ((∀ m ∈ (_read_memories_file st).memories, m.type ≠ t) → l = []) := by
  refine ⟨_, ?_, rfl, ?_⟩
  · simp [list_memories, _ensure_activated, hact]
  · intro h
    have : (_read_memories_file st).memories.filter
        (fun m => m.type == t) = [] := by
      apply List.filter_eq_nil_iff.mpr
      intro m hm
      simpa using h m hm
    rw [this, List.map_nil]

/-- C6 witness: listing with a matching and a non-matching filter at a
concrete store. -/
theorem list_kind_filter_witness :
    sampleStore.project_id = some "p-1" ∧
    (∃ l, list_memories sampleStore (some "design_doc") =
        (Except.ok l, [FsAccess.read]) ∧
      l = ((_read_memories_file sampleStore).memories.filter
          (fun m => m.type == "design_doc")).map
        (fun m => MemoryMetadata.mk m.id m.title m.type) ∧
      ((∀ m ∈ (_read_memories_file sampleStore).memories,
          m.type ≠ "design_doc") → l = [])) ∧
    (∃ l, list_memories sampleStore (some "analysis") =
        (Except.ok l, [FsAccess.read]) ∧
      l = ((_read_memories_file sampleStore).memories.filter
          (fun m => m.type == "analysis")).map
        (fun m => MemoryMetadata.mk m.id m.title m.type) ∧
      ((∀ m ∈ (_read_memories_file sampleStore).memories,
          m.type ≠ "analysis") → l = [])) :=
  ⟨rfl, list_kind_filter sampleStore "p-1" "design_doc" rfl,
   list_kind_filter sampleStore "p-1" "analysis" rfl⟩

/-- C7: every record operation (create, read, list, update, delete) on a
store instance on which activation has never succeeded (in-memory project
id still null) fails project_not_activated with an empty filesystem-access
trace: nothing is read or written, so no files appear and the persisted
state is untouched. -/
theorem ops_require_activation (st : MemoryStorage)
    (h : st.project_id = none) :
    (∀ title kind content new_id ts,
      store_memory st title kind content new_id ts =
        (Except.error MemError.projectNotActivated, [])) ∧
    (∀ mid, get_memory st mid =
        (Except.error MemError.projectNotActivated, [])) ∧
    (∀ f, list_memories st f =
        (Except.error MemError.projectNotActivated, [])) ∧
    (∀ mid c ts, update_memory st mid c ts =
        (Except.error MemError.projectNotActivated, [])) ∧
    (∀ mid, delete_memory st mid =
        (Except.error MemError.projectNotActivated, [])) := by
  refine ⟨?_, ?_, ?_, ?_, ?_⟩ <;> intros <;>
    simp [store_memory, get_memory, list_memories, update_memory,
      delete_memory, _ensure_activated, h]

/-- C7 witness: every operation rejected on the never-activated store. -/
theorem ops_require_activation_witness :
    freshStore.project_id = none ∧
    store_memory freshStore (some "T1") "design_doc" (some "c") "id1" "t1" =
      (Except.error MemError.projectNotActivated, []) ∧
    get_memory freshStore "id1" =
      (Except.error MemError.projectNotActivated, []) ∧
    list_memories freshStore none =
      (Except.error MemError.projectNotActivated, []) ∧
    update_memory freshStore "id1" "c" "t1" =
      (Except.error MemError.projectNotActivated, []) ∧
    delete_memory freshStore "id1" =
      (Except.error MemError.projectNotActivated, []) :=
  ⟨rfl,
   (ops_require_activation freshStore rfl).1 (some "T1") "design_doc"
     (some "c") "id1" "t1",
   (ops_require_activation freshStore rfl).2.1 "id1",
   (ops_require_activation freshStore rfl).2.2.1 none,
   (ops_require_activation freshStore rfl).2.2.2.1 "id1" "c" "t1",
   (ops_require_activation freshStore rfl).2.2.2.2 "id1"⟩

/-- C8: activation is idempotent: after a first activation (whose freshly
drawn id carries no surrounding whitespace, as a UUID string does), a second
activation returns the same project id and leaves the whole state — in
particular the identity file — unchanged, whatever fresh id it draws. -/
theorem activate_project_idempotent (st : MemoryStorage) (u1 u2 : String)
    (h : u1.trim = u1) :
    activate_project (activate_project st u1).1 u2 =
      activate_project st u1 := by
  obtain ⟨⟨pf, mf⟩, pid⟩ := st
  cases pf <;> cases mf <;> simp [activate_project, h]

theorem trim_sample_uuid : ("aaaa-bbbb" : String).trim = "aaaa-bbbb" := by
  show ("aaaa-bbbb".toSubstring.trim).toString = "aaaa-bbbb"
  rw [Substring.trim]
  rw [Substring.takeWhileAux]
  rw [dif_pos (by decide), if_neg (by decide)]
  rw [Substring.takeRightWhileAux]
  rw [dif_pos (by decide), if_pos (by decide)]
  rfl

/-- C8 witness: re-activation of a fresh directory returns the first id and
changes nothing. -/
theorem activate_project_idempotent_witness :
    ("aaaa-bbbb" : String).trim = "aaaa-bbbb" ∧
    activate_project (activate_project freshStore "aaaa-bbbb").1 "cccc-dddd" =
      activate_project freshStore "aaaa-bbbb" :=
  ⟨trim_sample_uuid,
   activate_project_idempotent freshStore "aaaa-bbbb" "cccc-dddd"
     trim_sample_uuid⟩

/-- C9: list performs no validation of its kind filter: on an activated
store whose records all carry kinds from the enumeration, a filter outside
the enumeration yields a successful empty listing, never an
invalid_memory_type error. -/
theorem list_unvalidated_filter (st : MemoryStorage) (pid t : String)
    (hact : st.project_id = some pid)
    (htypes : ∀ m ∈ (_read_memories_file st).memories,
      m.type ∈ ALLOWED_MEMORY_TYPES)
    (ht : t ∉ ALLOWED_MEMORY_TYPES) :
    list_memories st (some t) = (Except.ok [], [FsAccess.read]) := by
  have hfilter : (_read_memories_file st).memories.filter
      (fun m => m.type == t) = [] := by
    apply List.filter_eq_nil_iff.mpr
    intro m hm
    simp only [beq_iff_eq]
    intro he
    exact ht (he ▸ htypes m hm)
  simp [list_memories, _ensure_activated, hact, hfilter]

/-- C9 witness: a filter outside the enumeration at a concrete store. -/
theorem list_unvalidated_filter_witness :
    sampleStore.project_id = some "p-1" ∧
    (∀ m ∈ (_read_memories_file sampleStore).memories,
      m.type ∈ ALLOWED_MEMORY_TYPES) ∧
    ("bogus" : String) ∉ ALLOWED_MEMORY_TYPES ∧
    list_memories sampleStore (some "bogus") =
      (Except.ok [], [FsAccess.read]) :=
  ⟨rfl, by decide, by decide,
   list_unvalidated_filter sampleStore "p-1" "bogus" rfl (by decide)
     (by decide)⟩

/-- C10: on an activated store whose backing collection file is absent,
reading the collection yields the empty collection tagged with the
in-memory project id, so read of any id fails memory_not_found and list
with any filter returns the empty sequence — never a storage_error. -/
theorem absent_file_reads_as_empty (st : MemoryStorage) (pid : String)
    (hact : st.project_id = some pid)
    (hfile : st.fs.memories_file = none) :
    _read_memories_file st = MemoriesData.mk (some pid) [] ∧
    (∀ mid, get_memory st mid =
      (Except.error (MemError.memoryNotFound mid), [FsAccess.read])) ∧
    (∀ f, list_memories st f = (Except.ok [], [FsAccess.read])) := by
  have hread : _read_memories_file st = MemoriesData.mk (some pid) [] := by
    simp [_read_memories_file, hfile, hact]
  refine ⟨hread, ?_, ?_⟩
  · intro mid
    simp [get_memory, _ensure_activated, hact, hread, findMemory]
  · intro f
    simp [list_memories, _ensure_activated, hact, hread]

/-- C10 witness: an activated store whose memories file is missing. -/
theorem absent_file_reads_as_empty_witness :
    activatedNoFileStore.project_id = some "p-1" ∧
    activatedNoFileStore.fs.memories_file = none ∧
    _read_memories_file activatedNoFileStore = MemoriesData.mk (some "p-1") [] ∧
    get_memory activatedNoFileStore "id1" =
      (Except.error (MemError.memoryNotFound "id1"), [FsAccess.read]) ∧
    list_memories activatedNoFileStore (some "design_doc") =
      (Except.ok [], [FsAccess.read]) :=
  ⟨rfl, rfl,
   (absent_file_reads_as_empty activatedNoFileStore "p-1" rfl rfl).1,
   (absent_file_reads_as_empty activatedNoFileStore "p-1" rfl rfl).2.1 "id1",
   (absent_file_reads_as_empty activatedNoFileStore "p-1" rfl rfl).2.2
     (some "design_doc")⟩

end Infinity
